import Mathlib

/-
Verification development for the memory-store core of the adaptive-agent
repository: a shallow embedding of the lock manager (lock_manager.py), the
incremental indexer (indexer.py), the knowledge-graph store (graph_store.py),
the hybrid vector/lexical store (vector_store.py) and the caller-level hybrid
re-rank composition (tools/semantic.py), together with theorems settling the
behavioural claims about them.

Modelling conventions:
- Machine floats of the source become rationals; wall-clock timestamps become
  explicit arguments; SQLite tables and Python dicts become insertion-ordered
  association lists; raised Python exceptions become Except values.
- The sqlite-vec distance metric and the external embedding / re-rank HTTP
  collaborators are opaque capabilities in the source; they enter the embedding
  as function parameters.
- Python string .upper() / .lower() / .replace(" ", "_") are embedded as
  per-character maps, which agrees with Python on the ASCII identifiers the
  store manipulates.
-/

/-- Association-list lookup used to model Python dict lookup and SQL lookup by
primary key: first binding whose key matches. -/
def alookup {α β : Type} [DecidableEq α] (k : α) : List (α × β) → Option β
  | [] => none
  | kv :: rest => if kv.1 = k then some kv.2 else alookup k rest

/-- Python dict assignment d[k] = v: overwrite in place if the key exists
(keeping its original position, as CPython dicts do), else append. -/
def dict_insert {β : Type} (d : List (String × β)) (k : String) (v : β) :
    List (String × β) :=
  if (alookup k d).isSome then d.map (fun kv => if kv.1 = k then (k, v) else kv)
  else d ++ [(k, v)]

/-- Python str.upper() (character-wise, ASCII-faithful). -/
def py_upper (s : String) : String := ⟨s.data.map Char.toUpper⟩

/-- Python str.lower() (character-wise, ASCII-faithful). -/
def py_lower (s : String) : String := ⟨s.data.map Char.toLower⟩

/-- Python str.replace(" ", "_"): the pattern is a single character, so the
replacement is a character-wise map. -/
def py_replace_space (s : String) : String :=
  ⟨s.data.map (fun c => if c = ' ' then '_' else c)⟩

/- ### Lock manager (lock_manager.py)

The class holds one lazily created FileLock per logical resource, cached in a
class attribute. Lock objects are modelled by Nat identities drawn from a
fresh-id counter, so that "the same lock object is reused" is expressible. -/

/-- The closed set of logical lock resources of LockManager: exactly the three
class attributes _memory_lock, _knowledge_lock, _daily_log_lock. -/
inductive LockName where
  | memory : LockName
  | knowledge : LockName
  | daily_log : LockName
  deriving DecidableEq, Repr

/-- The backing lock file under .locks/ for each resource
(_get_memory_lock, _get_knowledge_lock, _get_daily_log_lock). -/
def LockName.lock_file : LockName → String
  | .memory => "memory.lock"
  | .knowledge => "knowledge.lock"
  | .daily_log => "daily_log.lock"

/-- All lock resources of the manager with their lock files. -/
def LockManager.lock_resources : List (LockName × String) :=
  [LockName.memory, LockName.knowledge, LockName.daily_log].map
    (fun n => (n, n.lock_file))

/-- Per-process state of the LockManager class attributes: the cached FileLock
object (if created) for each resource, plus a fresh-identity counter modelling
object allocation. -/
structure LockManagerState where
  memory_lock : Option Nat
  knowledge_lock : Option Nat
  daily_log_lock : Option Nat
  next_id : Nat
  deriving DecidableEq, Repr

/-- Process start: no lock object created yet. -/
def LockManagerState.init : LockManagerState := ⟨none, none, none, 0⟩

/-- The cached lock object for a resource, if any. -/
def LockManagerState.cached (st : LockManagerState) : LockName → Option Nat
  | .memory => st.memory_lock
  | .knowledge => st.knowledge_lock
  | .daily_log => st.daily_log_lock

/-- Store a newly created lock object in the class attribute for a resource. -/
def LockManagerState.set_cached (st : LockManagerState) :
    LockName → Nat → LockManagerState
  | .memory, l => { st with memory_lock := some l }
  | .knowledge, l => { st with knowledge_lock := some l }
  | .daily_log, l => { st with daily_log_lock := some l }

/-- _get_memory_lock / _get_knowledge_lock / _get_daily_log_lock: return the
cached FileLock, creating and caching it on first use. -/
def LockManager.get_lock (n : LockName) (st : LockManagerState) :
    Nat × LockManagerState :=
  match st.cached n with
  | some l => (l, st)
  | none => (st.next_id, { st.set_cached n st.next_id with next_id := st.next_id + 1 })

/- ### Knowledge-graph store (graph_store.py)

The networkx DiGraph is an insertion-ordered node list plus an insertion-ordered
edge list with at most one attribute record per ordered (source, target) pair.
Node ids are a type parameter: the public mutators use String ids, while the
JSON loader can put arbitrary JSON values in id position. -/

/-- Node attribute record as written by add_entity. -/
structure NodeAttrs where
  name : String
  type : String
  attributes : List (String × String)
  created_at : String
  deriving DecidableEq, Repr

/-- Edge attribute record as written by add_relation. -/
structure EdgeAttrs where
  predicate : String
  weight : ℚ
  source : String
  created_at : String
  deriving DecidableEq, Repr

/-- Triple dataclass (LLM extraction result). -/
structure Triple where
  subject : String
  predicate : String
  object : String
  subject_type : String
  object_type : String
  deriving DecidableEq, Repr

/-- The in-memory directed graph of GraphStore. -/
structure GraphStore (α : Type) where
  nodes : List (α × NodeAttrs)
  edges : List (α × α × EdgeAttrs)
  deriving DecidableEq, Repr

/-- A freshly initialised (or self-healed) empty graph. -/
def GraphStore.empty {α : Type} : GraphStore α := ⟨[], []⟩

/-- graph.has_node. -/
def GraphStore.has_node {α : Type} [DecidableEq α] (g : GraphStore α) (i : α) :
    Bool :=
  (alookup i g.nodes).isSome

/-- graph.has_edge on the ordered pair. -/
def GraphStore.has_edge {α : Type} [DecidableEq α] (g : GraphStore α)
    (s o : α) : Bool :=
  g.edges.any (fun e => decide (e.1 = s) && decide (e.2.1 = o))

/-- graph.successors: targets of outgoing edges, in edge insertion order. -/
def GraphStore.successors {α : Type} [DecidableEq α] (g : GraphStore α)
    (i : α) : List α :=
  (g.edges.filter (fun e => decide (e.1 = i))).map (fun e => e.2.1)

/-- graph.edges[s, o]: the attribute record of the edge, when present. -/
def GraphStore.edge_data {α : Type} [DecidableEq α] (g : GraphStore α)
    (s o : α) : Option EdgeAttrs :=
  (g.edges.find? (fun e => decide (e.1 = s) && decide (e.2.1 = o))).map
    (fun e => e.2.2)

/-- GraphStore.add_entity: upsert — an existing node keeps its position and
created_at but gets new name/type/attributes; a new node is appended with the
current timestamp. Always returns True. -/
def GraphStore.add_entity (g : GraphStore String) (entity_id name entity_type : String)
    (attributes : List (String × String)) (now : String) :
    GraphStore String × Bool :=
  match alookup entity_id g.nodes with
  | some old =>
      ({ g with nodes := g.nodes.map (fun p =>
          if p.1 = entity_id then
            (entity_id, { old with name := name, type := entity_type, attributes := attributes })
          else p) }, true)
  | none =>
      ({ g with nodes := g.nodes ++ [(entity_id, ⟨name, entity_type, attributes, now⟩)] }, true)

/-- GraphStore.add_relation: implicitly creates missing endpoints as entities
of type "unknown" (with the id as display name), upper-cases the predicate, and
adds the edge, overwriting the attribute record of an existing (subject, object)
edge. Always returns True. -/
def GraphStore.add_relation (g : GraphStore String)
    (subject_id predicate object_id : String) (weight : ℚ) (source : String)
    (now : String) : GraphStore String × Bool :=
  let g1 := if g.has_node subject_id then g
            else (g.add_entity subject_id subject_id "unknown" [] now).1
  let g2 := if g1.has_node object_id then g1
            else (g1.add_entity object_id object_id "unknown" [] now).1
  let attrs : EdgeAttrs := ⟨py_upper predicate, weight, source, now⟩
  let g3 :=
    if g2.has_edge subject_id object_id then
      { g2 with edges := g2.edges.map (fun e =>
          if e.1 = subject_id ∧ e.2.1 = object_id then (subject_id, object_id, attrs)
          else e) }
    else { g2 with edges := g2.edges ++ [(subject_id, object_id, attrs)] }
  (g3, true)

/-- GraphStore.add_triple: normalise subject/object text to ids (lowercase,
spaces to underscores), upsert both entities with the type hints, then
add_relation with default weight 1.0. -/
def GraphStore.add_triple (g : GraphStore String) (t : Triple) (source : String)
    (now : String) : GraphStore String × Bool :=
  let subject_id := py_replace_space (py_lower t.subject)
  let object_id := py_replace_space (py_lower t.object)
  let g1 := (g.add_entity subject_id t.subject t.subject_type [] now).1
  let g2 := (g1.add_entity object_id t.object t.object_type [] now).1
  g2.add_relation subject_id t.predicate object_id 1 source now

/-- GraphStore.query_relations: linear scan over all edges with independent
optional equality filters; the predicate filter compares against the
upper-cased argument. Returns (subject, predicate, object, attrs) tuples. -/
def GraphStore.query_relations {α : Type} [DecidableEq α] (g : GraphStore α)
    (subject_id : Option α) (predicate : Option String) (object_id : Option α) :
    List (α × String × α × EdgeAttrs) :=
  g.edges.filterMap (fun e =>
    let edge_predicate := e.2.2.predicate
    if (match subject_id with | some s => decide (e.1 = s) | none => true) &&
       (match predicate with | some p => decide (edge_predicate = py_upper p) | none => true) &&
       (match object_id with | some o => decide (e.2.1 = o) | none => true) then
      some (e.1, edge_predicate, e.2.1, e.2.2)
    else none)

/-- GraphStore.query_entity_neighbors: outgoing and/or incoming neighbors with
an optional predicate filter; empty list when the entity is absent. -/
def GraphStore.query_entity_neighbors {α : Type} [DecidableEq α]
    (g : GraphStore α) (entity_id : α) (predicate : Option String)
    (direction : String) : List (α × String × NodeAttrs) :=
  if !(g.has_node entity_id) then []
  else
    let keep := fun (edge_predicate : String) =>
      match predicate with
      | some p => decide (edge_predicate = py_upper p)
      | none => true
    let node_attrs := fun (i : α) =>
      (alookup i g.nodes).getD ⟨"", "unknown", [], ""⟩
    let out_part :=
      if direction = "out" ∨ direction = "both" then
        (g.successors entity_id).filterMap (fun nb =>
          let ep := ((g.edge_data entity_id nb).map EdgeAttrs.predicate).getD "RELATED_TO"
          if keep ep then some (nb, ep, node_attrs nb) else none)
      else []
    let in_part :=
      if direction = "in" ∨ direction = "both" then
        ((g.edges.filter (fun e => decide (e.2.1 = entity_id))).map (fun e => e.1)).filterMap
          (fun nb =>
            let ep := ((g.edge_data nb entity_id).map EdgeAttrs.predicate).getD "RELATED_TO"
            if keep ep then some (nb, ep, node_attrs nb) else none)
      else []
    out_part ++ in_part

/-- The recursive dfs closure inside GraphStore.multi_hop_query: emit the path
once all predicates are consumed; prune when the path length exceeds max_depth;
otherwise follow outgoing edges whose predicate equals the upper-cased next
required predicate. -/
def GraphStore.dfs {α : Type} [DecidableEq α] (g : GraphStore α)
    (max_depth : Nat) (current : α) (predicates : List String)
    (path : List α) : List (List α) :=
  match predicates with
  | [] => [path]
  | p :: ps =>
    if path.length > max_depth then []
    else
      let target_predicate := py_upper p
      (g.successors current).flatMap (fun nb =>
        if (((g.edge_data current nb).map EdgeAttrs.predicate).getD "") = target_predicate then
          g.dfs max_depth nb ps (path ++ [nb])
        else [])

/-- GraphStore.multi_hop_query: empty result for an absent start node, else the
dfs from the start node with initial path [start_id]. -/
def GraphStore.multi_hop_query {α : Type} [DecidableEq α] (g : GraphStore α)
    (start_id : α) (predicates : List String) (max_depth : Nat) :
    List (List α) :=
  if g.has_node start_id then g.dfs max_depth start_id predicates [start_id]
  else []

/-- GraphStore.delete_entity: remove the node and all incident edges; False
when the node is absent. -/
def GraphStore.delete_entity (g : GraphStore String) (entity_id : String) :
    GraphStore String × Bool :=
  if g.has_node entity_id then
    (⟨g.nodes.filter (fun p => !(decide (p.1 = entity_id))),
      g.edges.filter (fun e => !(decide (e.1 = entity_id) || decide (e.2.1 = entity_id)))⟩,
     true)
  else (g, false)

/-- GraphStore.delete_relation: remove the single (subject, object) edge; False
when it is absent. -/
def GraphStore.delete_relation (g : GraphStore String)
    (subject_id object_id : String) : GraphStore String × Bool :=
  if g.has_edge subject_id object_id then
    ({ g with edges := g.edges.filter (fun e =>
        !(decide (e.1 = subject_id) && decide (e.2.1 = object_id))) }, true)
  else (g, false)

/-- GraphStore.stats: entity count, relation count and the two histograms. -/
def GraphStore.stats {α : Type} [DecidableEq α] (g : GraphStore α) :
    Nat × Nat × List (String × Nat) × List (String × Nat) :=
  let entity_types := g.nodes.foldl
    (fun h p => dict_insert h p.2.type ((alookup p.2.type h).getD 0 + 1)) []
  let predicate_types := g.edges.foldl
    (fun h e => dict_insert h e.2.2.predicate ((alookup e.2.2.predicate h).getD 0 + 1)) []
  (g.nodes.length, g.edges.length, entity_types, predicate_types)

/-- GraphStore._save acquires LockManager.knowledge_lock (there is no separate
graph-snapshot lock in the source). -/
def GraphStore.save_lock : LockName := .knowledge

/- ### Hybrid vector / lexical store (vector_store.py)

The SQLite documents table and the sqlite-vec vec_index virtual table are
insertion-ordered association lists keyed by document id; metadata is the
serialised JSON string; INSERT OR REPLACE deletes an existing row with the same
primary key and appends the new one (SQLite REPLACE semantics). -/

/-- SearchResult dataclass of the vector search. -/
structure SearchResult where
  id : String
  content : String
  metadata : String
  distance : ℚ
  score : ℚ
  deriving DecidableEq, Repr

/-- Errors raised by VectorStore: the dimension-mismatch ValueError of add and
search. -/
inductive VecError where
  | dimMismatch (expected actual : Nat) : VecError
  deriving DecidableEq, Repr

/-- The persistent state of a VectorStore: the fixed dimension chosen at
creation, the documents table (id, content, metadata JSON) and the vec_index
table (id, embedding). -/
structure VectorStore where
  dimension : Nat
  documents : List (String × String × String)
  vec_index : List (String × List ℚ)
  deriving DecidableEq, Repr

/-- A freshly created store with the given dimension. -/
def VectorStore.create (dimension : Nat) : VectorStore := ⟨dimension, [], []⟩

/-- VectorStore.count: SELECT COUNT(*) FROM documents. -/
def VectorStore.count (st : VectorStore) : Nat := st.documents.length

/-- VectorStore.get: the (content, metadata) of a document, if present. -/
def VectorStore.get (st : VectorStore) (doc_id : String) :
    Option (String × String) :=
  alookup doc_id st.documents

/-- INSERT OR REPLACE into a table keyed by its first component: the old row is
deleted and the new row appended. -/
def sql_replace_doc (table : List (String × String × String))
    (doc_id content metadata : String) : List (String × String × String) :=
  table.filter (fun d => !(decide (d.1 = doc_id))) ++ [(doc_id, content, metadata)]

/-- INSERT OR REPLACE into vec_index. -/
def sql_replace_vec (table : List (String × List ℚ)) (doc_id : String)
    (embedding : List ℚ) : List (String × List ℚ) :=
  table.filter (fun v => !(decide (v.1 = doc_id))) ++ [(doc_id, embedding)]

/-- VectorStore.add: raise the dimension-mismatch ValueError before touching
the store when the embedding length differs from the configured dimension;
otherwise write the document row, and the vector row when the sqlite-vec
capability is available, and return True. The (state, outcome) pair keeps the
post-state of a failed call observable. -/
def VectorStore.add (st : VectorStore) (vec_available : Bool)
    (doc_id content : String) (embedding : List ℚ) (metadata : String) :
    VectorStore × Except VecError Bool :=
  if embedding.length ≠ st.dimension then
    (st, .error (.dimMismatch st.dimension embedding.length))
  else
    ({ st with
        documents := sql_replace_doc st.documents doc_id content metadata,
        vec_index := if vec_available then sql_replace_vec st.vec_index doc_id embedding
                     else st.vec_index },
     .ok true)

/-- VectorStore.add and VectorStore.delete acquire LockManager.knowledge_lock
(there is no separate vector-db lock in the source). -/
def VectorStore.add_lock : LockName := .knowledge

/-- A row of the KNN join of vec_index with documents. -/
structure VecRow where
  id : String
  distance : ℚ
  content : String
  metadata : String
  deriving DecidableEq, Repr

/-- The ORDER BY v.distance comparison of the KNN query. -/
def vec_row_le (a b : VecRow) : Prop := a.distance ≤ b.distance

instance : DecidableRel vec_row_le :=
  fun a b => inferInstanceAs (Decidable (a.distance ≤ b.distance))

instance : IsTotal VecRow vec_row_le := ⟨fun a b => le_total a.distance b.distance⟩

instance : IsTrans VecRow vec_row_le :=
  ⟨fun _ _ _ hab hbc => le_trans hab hbc⟩

/-- The relevance score computed per result row: 1.0 / (1.0 + distance). -/
def score_of (distance : ℚ) : ℚ := 1 / (1 + distance)

/-- VectorStore.search: the empty list when sqlite-vec is unavailable (before
any validation); the dimension-mismatch ValueError for a wrong-length query
embedding; otherwise the vec_index rows joined with their documents, ordered by
ascending distance, limited to top_k, each with score 1 / (1 + distance).
The distance metric computed by the sqlite-vec MATCH operator is an opaque
engine capability, passed in as the dist parameter. -/
def VectorStore.search (st : VectorStore) (vec_available : Bool)
    (dist : List ℚ → List ℚ → ℚ) (query_embedding : List ℚ) (top_k : Nat) :
    Except VecError (List SearchResult) :=
  if !vec_available then .ok []
  else if query_embedding.length ≠ st.dimension then
    .error (.dimMismatch st.dimension query_embedding.length)
  else
    let rows := st.vec_index.filterMap (fun v =>
      (alookup v.1 st.documents).map (fun cm =>
        VecRow.mk v.1 (dist query_embedding v.2) cm.1 cm.2))
    let ordered := (rows.insertionSort vec_row_le).take top_k
    .ok (ordered.map (fun r => ⟨r.id, r.content, r.metadata, r.distance, score_of r.distance⟩))

/-- VectorStore.delete: DELETE FROM documents (and from vec_index when
sqlite-vec is available) by id, then return True — also when no such row
exists. -/
def VectorStore.delete (st : VectorStore) (vec_available : Bool)
    (doc_id : String) : VectorStore × Bool :=
  ({ st with
      documents := st.documents.filter (fun d => !(decide (d.1 = doc_id))),
      vec_index := if vec_available then
                     st.vec_index.filter (fun v => !(decide (v.1 = doc_id)))
                   else st.vec_index },
   true)

/- ### Caller-level hybrid composition (tools/semantic.py, semantic_search)

After the KNN search produced a candidate pool, the tool optionally re-ranks:
when use_rerank is requested, the re-rank capability is configured and the pool
exceeds rerank_top_n, the pool is re-ordered following the items returned by
the external re-ranker (each carrying a candidate index and a relevance score
that replaces the vector score); otherwise the pool is returned as is. The
external response is a parameter; an out-of-range index in it makes the Python
list subscript raise, modelled by the none outcome. -/

/-- The re-rank step of semantic_search. -/
def semantic_rerank_compose (results : List SearchResult)
    (use_rerank rerank_available : Bool) (rerank_items : List (Nat × ℚ))
    (rerank_top_n : Nat) : Option (List SearchResult) :=
  if use_rerank && rerank_available && decide (results.length > rerank_top_n) then
    rerank_items.mapM (fun it =>
      (results.get? it.1).map (fun r => { r with score := it.2 }))
  else some results

/- ### Incremental indexer (indexer.py)

The walked file tree is a list of (relative path, modification time, optional
parsed YAML frontmatter); the persisted index is the metadata record (build
timestamp, format version) plus the per-file entries. -/

/-- One persisted index entry (indexer.py index structure). -/
structure FileEntry where
  date : Option String
  tags : List String
  summary : String
  type : String
  mtime : Nat
  deriving DecidableEq, Repr

/-- The index metadata record built by _build_metadata. -/
structure IndexMetadata where
  last_build : Nat
  version : String
  deriving DecidableEq, Repr

/-- The persisted index: metadata plus the files map. -/
structure MemoryIndex where
  metadata : IndexMetadata
  files : List (String × FileEntry)
  deriving DecidableEq, Repr

/-- The YAML frontmatter fields read with metadata.get in build_index; a
missing field is none and the source-level default applies. -/
structure Frontmatter where
  date : Option String
  tags : Option (List String)
  summary : Option String
  type : Option String
  deriving DecidableEq, Repr

/-- A file of the walked memory tree: relative path, current modification time
and the frontmatter parse result of its first 1000 characters (none when the
frontmatter regex does not match). -/
structure FSFile where
  rel_path : String
  mtime : Nat
  frontmatter : Option Frontmatter
  deriving DecidableEq, Repr

/-- Indexer.INDEX_VERSION. -/
def INDEX_VERSION : String := "2.0"

/-- The freshly computed entry for a file that must be (re)indexed: the
frontmatter fields with their defaults, or the plain-file entry, stamped with
the current modification time. -/
def compute_entry (f : FSFile) : FileEntry :=
  match f.frontmatter with
  | some m => ⟨m.date, m.tags.getD [], m.summary.getD "", m.type.getD "unknown", f.mtime⟩
  | none => ⟨none, [], "", "plain", f.mtime⟩

/-- The file loop of build_index: for each walked file, copy the cached entry
forward when it exists and its recorded mtime is not older than the current one
(a cache hit, counted in skipped), else recompute the entry (counted in
updated); entries accumulate into the new files dict. -/
def walk_files (existing : List (String × FileEntry)) :
    List FSFile → List (String × FileEntry) → Nat → Nat →
    List (String × FileEntry) × Nat × Nat
  | [], acc, updated, skipped => (acc, updated, skipped)
  | f :: rest, acc, updated, skipped =>
    match alookup f.rel_path existing with
    | some e =>
      if f.mtime ≤ e.mtime then
        walk_files existing rest (dict_insert acc f.rel_path e) updated (skipped + 1)
      else
        walk_files existing rest (dict_insert acc f.rel_path (compute_entry f)) (updated + 1) skipped
    | none =>
      walk_files existing rest (dict_insert acc f.rel_path (compute_entry f)) (updated + 1) skipped

/-- Indexer.build_index: discard the prior entries on force_full or on a format
version mismatch; walk the current tree reusing fresh cached entries; persist
the new index whose metadata carries the current build timestamp and version.
Returns the persisted index together with the (updated, skipped) counters it
reports. -/
def Indexer.build_index (now : Nat) (force_full : Bool)
    (memory_dir_exists : Bool) (existing_index : Option MemoryIndex)
    (fs : List FSFile) : MemoryIndex × Nat × Nat :=
  let existing_files :=
    match (if force_full then none else existing_index) with
    | none => []
    | some ix => if ix.metadata.version ≠ INDEX_VERSION then [] else ix.files
  if !memory_dir_exists then (⟨⟨now, INDEX_VERSION⟩, []⟩, 0, 0)
  else
    let w := walk_files existing_files fs [] 0 0
    (⟨⟨now, INDEX_VERSION⟩, w.1⟩, w.2.1, w.2.2)

/- ### Persisted-graph loading (graph_store.py, GraphStore._load)

The persisted snapshot is parsed with json.load; the load loop then navigates
the parsed value with dict.get, iteration and subscripting. Only
json.JSONDecodeError and KeyError are caught (and answered by re-initialising
an empty graph); every other exception raised while navigating a
wrong-shaped value (AttributeError, TypeError) propagates. The embedding mirrors
CPython: .get on a non-dict raises AttributeError; iterating a non-iterable
raises TypeError (strings iterate over their characters, dicts over their
keys); subscripting a non-dict with a string key raises TypeError; subscripting
a dict without the key raises KeyError. -/

/-- Parsed JSON values. -/
inductive Json where
  | null : Json
  | bool (b : Bool) : Json
  | num (q : ℚ) : Json
  | str (s : String) : Json
  | arr (items : List Json) : Json
  | obj (fields : List (String × Json)) : Json

/-- Structural equality on JSON values (CPython object identity is irrelevant
here: networkx keys nodes by equality). -/
def Json.beq : Json → Json → Bool
  | .null, .null => true
  | .bool a, .bool b => a == b
  | .num a, .num b => a == b
  | .str a, .str b => a == b
  | .arr (x :: xs), .arr (y :: ys) => Json.beq x y && Json.beq (.arr xs) (.arr ys)
  | .arr [], .arr [] => true
  | .obj ((k, v) :: xs), .obj ((k2, v2) :: ys) =>
      k == k2 && Json.beq v v2 && Json.beq (.obj xs) (.obj ys)
  | .obj [], .obj [] => true
  | _, _ => false

/-- The Python exceptions the load loop can raise. -/
inductive PyErr where
  | keyErr : PyErr
  | attrErr : PyErr
  | typeErr : PyErr
  deriving DecidableEq, Repr

/-- Python value.get(key, default): defined for dicts, AttributeError on
everything else. -/
def py_dict_get (v : Json) (key : String) (default : Json) : Except PyErr Json :=
  match v with
  | .obj fields => .ok ((alookup key fields).getD default)
  | _ => .error .attrErr

/-- Python iteration (for x in v): lists yield their items, strings their
one-character substrings, dicts their keys; other values raise TypeError. -/
def py_iter (v : Json) : Except PyErr (List Json) :=
  match v with
  | .arr items => .ok items
  | .str s => .ok (s.data.map (fun c => Json.str ⟨[c]⟩))
  | .obj fields => .ok (fields.map (fun kv => Json.str kv.1))
  | _ => .error .typeErr

/-- Python v[key] with a string key: KeyError when a dict lacks the key,
TypeError when v is not a dict. -/
def py_subscript (v : Json) (key : String) : Except PyErr Json :=
  match v with
  | .obj fields =>
    match alookup key fields with
    | some x => .ok x
    | none => .error .keyErr
  | _ => .error .typeErr

/-- Node attributes as loaded from a persisted node record (raw JSON values,
with the source-level defaults already applied). -/
structure RawNodeAttrs where
  name : Json
  type : Json
  attributes : Json
  created_at : Json

/-- Edge attributes as loaded from a persisted edge record; source_doc is
stored under the attribute key "source" in the Python graph. -/
structure RawEdgeAttrs where
  predicate : Json
  weight : Json
  source_doc : Json
  created_at : Json

/-- The networkx graph rebuilt by _load: node ids and attribute records
(none for a node networkx created implicitly from an edge endpoint), and one
attribute record per ordered edge pair. -/
structure RawGraph where
  nodes : List (Json × Option RawNodeAttrs)
  edges : List ((Json × Json) × RawEdgeAttrs)

/-- The empty rebuilt graph. -/
def RawGraph.empty : RawGraph := ⟨[], []⟩

/-- networkx add_node: update the attributes of an existing node in place,
else append. -/
def RawGraph.add_node (g : RawGraph) (i : Json) (attrs : RawNodeAttrs) :
    RawGraph :=
  if g.nodes.any (fun p => Json.beq p.1 i) then
    { g with nodes := g.nodes.map (fun p =>
        if Json.beq p.1 i then (p.1, some attrs) else p) }
  else { g with nodes := g.nodes ++ [(i, some attrs)] }

/-- networkx add_edge: implicitly create absent endpoints (with no
attributes), then write the edge attribute record, overwriting the record of
an existing (source, target) pair. -/
def RawGraph.add_edge (g : RawGraph) (s t : Json) (attrs : RawEdgeAttrs) :
    RawGraph :=
  let withS := if g.nodes.any (fun p => Json.beq p.1 s) then g.nodes
               else g.nodes ++ [(s, none)]
  let withT := if withS.any (fun p => Json.beq p.1 t) then withS
               else withS ++ [(t, none)]
  let edges :=
    if g.edges.any (fun e => Json.beq e.1.1 s && Json.beq e.1.2 t) then
      g.edges.map (fun e =>
        if Json.beq e.1.1 s && Json.beq e.1.2 t then (e.1, attrs) else e)
    else g.edges ++ [((s, t), attrs)]
  ⟨withT, edges⟩

/-- The body of GraphStore._load after json.load succeeded: data.get("nodes",
[]) is iterated and each record is added with node_data["id"] and the
defaulted attribute reads, then likewise for data.get("edges", []). Errors
are the Python exceptions in raise order. -/
def GraphStore.load_body (data : Json) : Except PyErr RawGraph := do
  let nodes_val ← py_dict_get data "nodes" (Json.arr [])
  let node_items ← py_iter nodes_val
  let g1 ← node_items.foldlM (fun (g : RawGraph) nd => do
      let i ← py_subscript nd "id"
      let name ← py_dict_get nd "name" (Json.str "")
      let ty ← py_dict_get nd "type" (Json.str "unknown")
      let attributes ← py_dict_get nd "attributes" (Json.obj [])
      let created_at ← py_dict_get nd "created_at" (Json.str "")
      pure (g.add_node i ⟨name, ty, attributes, created_at⟩)) RawGraph.empty
  let edges_val ← py_dict_get data "edges" (Json.arr [])
  let edge_items ← py_iter edges_val
  edge_items.foldlM (fun (g : RawGraph) ed => do
      let s ← py_subscript ed "source"
      let t ← py_subscript ed "target"
      let predicate ← py_dict_get ed "predicate" (Json.str "RELATED_TO")
      let weight ← py_dict_get ed "weight" (Json.num 1)
      let source_doc ← py_dict_get ed "source_doc" (Json.str "")
      let created_at ← py_dict_get ed "created_at" (Json.str "")
      pure (g.add_edge s t ⟨predicate, weight, source_doc, created_at⟩)) g1

/-- GraphStore._load: a missing file leaves the fresh empty graph; a file that
json.load cannot parse (modelled as parse result none) is caught and answered
with the empty graph, as is a KeyError raised while navigating the parsed
value; every other exception of the load loop propagates. -/
def GraphStore.load (file_exists : Bool) (parsed : Option Json) :
    Except PyErr RawGraph :=
  if !file_exists then .ok RawGraph.empty
  else
    match parsed with
    | none => .ok RawGraph.empty
    | some data =>
      match GraphStore.load_body data with
      | .ok g => .ok g
      | .error .keyErr => .ok RawGraph.empty
      | .error e => .error e

/- ### Concrete instances used by the claim theorems -/

/-- The chain a→b→c→d with predicates P1, P2, P3, built through the store's
own mutators. -/
def chain_graph : GraphStore String :=
  (((GraphStore.empty.add_relation "a" "P1" "b" 1 "" "t").1.add_relation
      "b" "P2" "c" 1 "" "t").1.add_relation "c" "P3" "d" 1 "" "t").1

/-- The graph obtained by addTriple {subject: "User", predicate: "likes",
object: "Go"} on a fresh store. -/
def c6_graph : GraphStore String :=
  (GraphStore.empty.add_triple ⟨"User", "likes", "Go", "unknown", "unknown"⟩ "" "t").1

/-- A candidate pool of 10 vector-search results. -/
def results10 : List SearchResult :=
  (List.range 10).map (fun i => ⟨toString i, toString i, "", (i : ℚ), score_of (i : ℚ)⟩)

/-- The response of a stub re-ranker that reverses a pool of 10 and truncates
to its top 5: indices 9,8,7,6,5 with descending relevance scores. -/
def reverse_rerank_items : List (Nat × ℚ) :=
  [(9, 5), (8, 4), (7, 3), (6, 2), (5, 1)]

/-- A trivial distance function for witness instantiations. -/
def dist0 : List ℚ → List ℚ → ℚ := fun _ _ => 0

/-- A one-file tree for witness instantiations of the indexer claims. -/
def fs1 : List FSFile := [⟨"2025/october/week_41/2025-10-08.md", 5, none⟩]

/-- The entry build_index stores for a walked file given the prior entries:
the cached entry when it is fresh, else the recomputed one. -/
def choose_entry (existing : List (String × FileEntry)) (f : FSFile) :
    FileEntry :=
  match alookup f.rel_path existing with
  | some e => if f.mtime ≤ e.mtime then e else compute_entry f
  | none => compute_entry f

/-- Whether a walked file is a cache hit against the prior entries. -/
def cache_hit (existing : List (String × FileEntry)) (f : FSFile) : Bool :=
  match alookup f.rel_path existing with
  | some e => decide (f.mtime ≤ e.mtime)
  | none => false

/- ### Helper lemmas -/

theorem alookup_append {α β : Type} [DecidableEq α] (k : α)
    (l₁ l₂ : List (α × β)) :
    alookup k (l₁ ++ l₂) =
      match alookup k l₁ with
      | some v => some v
      | none => alookup k l₂ := by
  induction l₁ with
  | nil => rfl
  | cons hd tl ih =>
    rw [List.cons_append, alookup, alookup]
    by_cases h : hd.1 = k
    · simp [h]
    · simp only [h, if_false, ih]

theorem alookup_eq_none_forall {α β : Type} [DecidableEq α] {k : α} :
    ∀ {l : List (α × β)}, alookup k l = none → ∀ kv ∈ l, ¬(kv.1 = k) := by
  intro l
  induction l with
  | nil => intro _ kv h; cases h
  | cons hd tl ih =>
    intro h kv hm
    rw [alookup] at h
    by_cases h1 : hd.1 = k
    · rw [if_pos h1] at h; cases h
    · rw [if_neg h1] at h
      rcases List.mem_cons.mp hm with he | ht
      · rw [he]; exact h1
      · exact ih h kv ht

theorem compute_entry_mtime (f : FSFile) : (compute_entry f).mtime = f.mtime := by
  unfold compute_entry
  cases f.frontmatter <;> rfl

theorem le_choose_entry_mtime (existing : List (String × FileEntry))
    (f : FSFile) : f.mtime ≤ (choose_entry existing f).mtime := by
  unfold choose_entry
  cases h : alookup f.rel_path existing with
  | none => rw [compute_entry_mtime]
  | some e =>
    by_cases hle : f.mtime ≤ e.mtime <;> simp [hle, compute_entry_mtime]

theorem graph_dfs_eq_nil_of_deep {α : Type} [DecidableEq α] (g : GraphStore α)
    (max_depth : Nat) :
    ∀ (preds : List String) (current : α) (path : List α), preds ≠ [] →
      max_depth + 1 < path.length + preds.length →
      g.dfs max_depth current preds path = [] := by
  intro preds
  induction preds with
  | nil => intro _ _ h _; exact absurd rfl h
  | cons p ps ih =>
    intro current path _ hlen
    rw [GraphStore.dfs]
    by_cases hd : path.length > max_depth
    · rw [if_pos hd]
    · rw [if_neg hd]
      apply List.flatMap_eq_nil_iff.mpr
      intro nb _
      by_cases hp : (((g.edge_data current nb).map EdgeAttrs.predicate).getD "") = py_upper p
      · rw [if_pos hp]
        cases ps with
        | nil =>
          exfalso
          simp only [List.length_cons, List.length_nil] at hlen
          omega
        | cons q qs =>
          apply ih nb (path ++ [nb]) (by simp)
          simp only [List.length_append, List.length_singleton, List.length_cons] at hlen ⊢
          omega
      · rw [if_neg hp]

/-- C2: multiHopQuery prunes any path whose length exceeds maxDepth: a
predicate sequence longer than maxDepth yields no paths on any graph; on the
chain a→b→c→d with predicates P1,P2,P3, maxDepth 2 yields no paths while
maxDepth 3 yields exactly the path a,b,c,d. -/
theorem multi_hop_prunes_beyond_max_depth :
    (∀ (g : GraphStore String) (start_id : String) (preds : List String)
        (max_depth : Nat), preds.length > max_depth →
        g.multi_hop_query start_id preds max_depth = []) ∧
    chain_graph.multi_hop_query "a" ["P1", "P2", "P3"] 2 = [] ∧
    chain_graph.multi_hop_query "a" ["P1", "P2", "P3"] 3 = [["a", "b", "c", "d"]] := by
  refine ⟨?_, by decide, by decide⟩
  intro g start_id preds max_depth h
  unfold GraphStore.multi_hop_query
  by_cases hn : g.has_node start_id = true
  · rw [if_pos hn]
    apply graph_dfs_eq_nil_of_deep
    · intro he
      rw [he] at h
      exact Nat.not_lt_zero max_depth h
    · simp only [List.length_singleton]
      omega
  · rw [if_neg hn]

theorem multi_hop_prunes_beyond_max_depth_witness :
    chain_graph.multi_hop_query "a" ["P1"] 0 = [] :=
  multi_hop_prunes_beyond_max_depth.1 chain_graph "a" ["P1"] 0 (by decide)

/-- C9: with an empty predicate sequence, multiHopQuery returns exactly the
single-node path when the start entity exists and the empty list when it is
absent, for every graph and maxDepth. -/
theorem multi_hop_empty_predicates (g : GraphStore String) (start_id : String)
    (max_depth : Nat) :
    (g.has_node start_id = true →
      g.multi_hop_query start_id [] max_depth = [[start_id]]) ∧
    (g.has_node start_id = false →
      g.multi_hop_query start_id [] max_depth = []) := by
  constructor
  · intro h
    unfold GraphStore.multi_hop_query
    rw [if_pos h]
    rfl
  · intro h
    unfold GraphStore.multi_hop_query
    rw [if_neg (by rw [h]; exact Bool.false_ne_true)]

theorem multi_hop_empty_predicates_witness :
    chain_graph.multi_hop_query "a" [] 3 = [["a"]] ∧
    chain_graph.multi_hop_query "zz" [] 3 = [] :=
  ⟨(multi_hop_empty_predicates chain_graph "a" 3).1 (by decide),
   (multi_hop_empty_predicates chain_graph "zz" 3).2 (by decide)⟩

/-- C6: addTriple {subject: "User", predicate: "likes", object: "Go"} on a
fresh graph normalises the texts to lowercase underscore ids, so entities
"user" and "go" exist and queryRelations(subject = "user") returns exactly one
relation, with predicate "LIKES" and object "go". -/
theorem add_triple_normalises_and_round_trips :
    c6_graph.has_node "user" = true ∧ c6_graph.has_node "go" = true ∧
    (c6_graph.query_relations (some "user") none none).map
      (fun r => (r.1, r.2.1, r.2.2.1)) = [("user", "LIKES", "go")] ∧
    (c6_graph.query_relations (some "user") none none).length = 1 := by decide

/-- C1: Hybrid Store add with an embedding whose length differs from the
configured dimension fails with the dimension-mismatch validation error and
leaves the store unchanged, so count is the same before and after. -/
theorem add_rejects_dimension_mismatch (st : VectorStore) (vec_available : Bool)
    (doc_id content : String) (embedding : List ℚ) (metadata : String)
    (h : embedding.length ≠ st.dimension) :
    st.add vec_available doc_id content embedding metadata =
      (st, Except.error (VecError.dimMismatch st.dimension embedding.length)) ∧
    (st.add vec_available doc_id content embedding metadata).1.count = st.count := by
  unfold VectorStore.add
  rw [if_pos h]
  exact ⟨rfl, rfl⟩

theorem add_rejects_dimension_mismatch_witness :
    (VectorStore.create 4).add true "d1" "hello" [0, 0] "" =
      (VectorStore.create 4, Except.error (VecError.dimMismatch 4 2)) ∧
    ((VectorStore.create 4).add true "d1" "hello" [0, 0] "").1.count =
      (VectorStore.create 4).count :=
  add_rejects_dimension_mismatch (VectorStore.create 4) true "d1" "hello"
    [0, 0] "" (by decide)

/-- C10: Hybrid Store delete returns True for every id, present or absent;
deleting an absent id leaves the documents (hence count) unchanged, unlike the
graph-store deleters, which return False for absent targets. -/
theorem delete_always_reports_success (st : VectorStore) (vec_available : Bool)
    (doc_id : String) :
    (st.delete vec_available doc_id).2 = true ∧
    (st.get doc_id = none →
      (st.delete vec_available doc_id).1.documents = st.documents ∧
      (st.delete vec_available doc_id).1.count = st.count) ∧
    (∀ (g : GraphStore String) (entity_id : String),
      g.has_node entity_id = false → (g.delete_entity entity_id).2 = false) ∧
    (∀ (g : GraphStore String) (s o : String),
      g.has_edge s o = false → (g.delete_relation s o).2 = false) := by
  refine ⟨rfl, ?_, ?_, ?_⟩
  · intro h
    have hdocs : st.documents.filter (fun d => !(decide (d.1 = doc_id))) = st.documents := by
      apply List.filter_eq_self.mpr
      intro d hd
      simp only [Bool.not_eq_eq_eq_not, Bool.not_true, decide_eq_false_iff_not]
      exact alookup_eq_none_forall h d hd
    constructor
    · exact hdocs
    · show (st.delete vec_available doc_id).1.documents.length = st.documents.length
      rw [show (st.delete vec_available doc_id).1.documents =
            st.documents.filter (fun d => !(decide (d.1 = doc_id))) from rfl, hdocs]
  · intro g entity_id h
    unfold GraphStore.delete_entity
    rw [if_neg (by rw [h]; exact Bool.false_ne_true)]
  · intro g s o h
    unfold GraphStore.delete_relation
    rw [if_neg (by rw [h]; exact Bool.false_ne_true)]

theorem delete_always_reports_success_witness :
    ((VectorStore.create 4).delete true "absent").2 = true ∧
    ((VectorStore.create 4).delete true "absent").1.documents =
      (VectorStore.create 4).documents ∧
    (GraphStore.empty.delete_entity "absent").2 = false :=
  ⟨(delete_always_reports_success (VectorStore.create 4) true "absent").1,
   ((delete_always_reports_success (VectorStore.create 4) true "absent").2.1 rfl).1,
   (delete_always_reports_success (VectorStore.create 4) true "absent").2.2.1
     GraphStore.empty "absent" (by decide)⟩

/-- C5 counterexample: the Lock Manager keys locks by exactly three logical
resource names with lock files memory.lock, knowledge.lock and daily_log.lock —
not by the claimed five; in particular the graph snapshot and the vector store
have no lock of their own: their mutators acquire the knowledge lock. -/
theorem lock_resources_are_three_not_five :
    LockManager.lock_resources.length = 3 ∧
    LockManager.lock_resources.length ≠ 5 ∧
    LockManager.lock_resources.map Prod.snd =
      ["memory.lock", "knowledge.lock", "daily_log.lock"] ∧
    GraphStore.save_lock = LockName.knowledge ∧
    VectorStore.add_lock = LockName.knowledge := by decide

/-- C5 (amended): the Lock Manager keys locks by the fixed set of three
logical resource names — memory, knowledge, daily-log — each with one distinct
lock file (graph-snapshot and vector-db mutations share the knowledge lock);
within one process the first acquisition of a name creates and caches its lock
object, and every subsequent acquisition of that name reuses the cached
object. -/
theorem lock_manager_caching (st : LockManagerState) (n : LockName) :
    LockManager.lock_resources.length = 3 ∧
    (LockManager.lock_resources.map Prod.snd).Nodup ∧
    (st.cached n = none →
      (LockManager.get_lock n st).1 = st.next_id ∧
      ((LockManager.get_lock n st).2).cached n = some st.next_id) ∧
    (∀ l, st.cached n = some l → LockManager.get_lock n st = (l, st)) ∧
    LockManager.get_lock n ((LockManager.get_lock n st).2) =
      ((LockManager.get_lock n st).1, (LockManager.get_lock n st).2) := by
  refine ⟨by decide, by decide, ?_, ?_, ?_⟩
  · intro h
    unfold LockManager.get_lock
    rw [h]
    exact ⟨rfl, by cases n <;> rfl⟩
  · intro l h
    unfold LockManager.get_lock
    rw [h]
  · cases n with
    | memory =>
      cases hm : st.memory_lock with
      | some l => simp [LockManager.get_lock, LockManagerState.cached, hm]
      | none =>
        simp [LockManager.get_lock, LockManagerState.cached,
          LockManagerState.set_cached, hm]
    | knowledge =>
      cases hm : st.knowledge_lock with
      | some l => simp [LockManager.get_lock, LockManagerState.cached, hm]
      | none =>
        simp [LockManager.get_lock, LockManagerState.cached,
          LockManagerState.set_cached, hm]
    | daily_log =>
      cases hm : st.daily_log_lock with
      | some l => simp [LockManager.get_lock, LockManagerState.cached, hm]
      | none =>
        simp [LockManager.get_lock, LockManagerState.cached,
          LockManagerState.set_cached, hm]

theorem lock_manager_caching_witness :
    (LockManager.get_lock LockName.memory LockManagerState.init).1 = 0 ∧
    ((LockManager.get_lock LockName.memory LockManagerState.init).2).cached
      LockName.memory = some 0 ∧
    LockManager.get_lock LockName.knowledge ⟨none, some 7, none, 8⟩ =
      (7, ⟨none, some 7, none, 8⟩) :=
  ⟨((lock_manager_caching LockManagerState.init LockName.memory).2.2.1 rfl).1,
   ((lock_manager_caching LockManagerState.init LockName.memory).2.2.1 rfl).2,
   (lock_manager_caching ⟨none, some 7, none, 8⟩ LockName.knowledge).2.2.2.1 7 rfl⟩

/-- C8 counterexample: a corrupt persisted graph file that is valid JSON with a
top-level array — json.load succeeds, then data.get("nodes", []) raises an
uncaught AttributeError — makes the first access raise instead of self-healing
to an empty graph. -/
theorem load_raises_on_json_array :
    GraphStore.load true (some (Json.arr [Json.num 0])) =
      Except.error PyErr.attrErr := rfl

/-- C8 (amended): the first access self-heals to an empty graph exactly for
the caught corruptions — a file json.load cannot parse, or a load loop that
raises KeyError (a node/edge record missing a required field); every query
over the empty graph then returns the empty result. Wrong-shaped but parseable
JSON (e.g. a top-level array) still raises. -/
theorem load_self_heals_on_caught_errors :
    (∀ file_exists : Bool,
      GraphStore.load file_exists none = Except.ok RawGraph.empty) ∧
    (∀ data : Json, GraphStore.load_body data = Except.error PyErr.keyErr →
      GraphStore.load true (some data) = Except.ok RawGraph.empty) ∧
    (∀ (sid p oid : Option String),
      (GraphStore.empty : GraphStore String).query_relations sid p oid = []) ∧
    (∀ (start_id : String) (preds : List String) (d : Nat),
      (GraphStore.empty : GraphStore String).multi_hop_query start_id preds d = []) ∧
    (∀ (eid : String) (p : Option String) (dir : String),
      (GraphStore.empty : GraphStore String).query_entity_neighbors eid p dir = []) := by
  refine ⟨?_, ?_, ?_, ?_, ?_⟩
  · intro fe; cases fe <;> rfl
  · intro data h
    simp [GraphStore.load, h]
  · intro sid p oid; rfl
  · intro start_id preds d; rfl
  · intro eid p dir; rfl

theorem load_self_heals_on_caught_errors_witness :
    GraphStore.load true (some (Json.obj [("nodes", Json.arr [Json.obj []])])) =
      Except.ok RawGraph.empty :=
  load_self_heals_on_caught_errors.2.1
    (Json.obj [("nodes", Json.arr [Json.obj []])]) rfl

/-- C3: when the vector capability is unavailable, search returns the empty
list (never an error) for every query and topK; otherwise its results are in
ascending order of distance, each with score 1 / (1 + distance), a value that
is strictly decreasing in the distance and lies in (0, 1] for every
non-negative distance. -/
theorem search_orders_by_distance :
    (∀ (st : VectorStore) (dist : List ℚ → List ℚ → ℚ) (q : List ℚ) (k : Nat),
      st.search false dist q k = Except.ok []) ∧
    (∀ (st : VectorStore) (vec_available : Bool) (dist : List ℚ → List ℚ → ℚ)
        (q : List ℚ) (k : Nat) (rs : List SearchResult),
      st.search vec_available dist q k = Except.ok rs →
      rs.Pairwise (fun a b => a.distance ≤ b.distance) ∧
      ∀ r ∈ rs, r.score = score_of r.distance ∧
        (0 ≤ r.distance → 0 < r.score ∧ r.score ≤ 1)) ∧
    (∀ d₁ d₂ : ℚ, 0 ≤ d₁ → d₁ < d₂ → score_of d₂ < score_of d₁) := by
  refine ⟨?_, ?_, ?_⟩
  · intro st dist q k; rfl
  · intro st vec_available dist q k rs h
    unfold VectorStore.search at h
    cases vec_available with
    | false =>
      rw [if_pos (show (!false) = true from rfl)] at h
      have hrs : ([] : List SearchResult) = rs := Except.ok.inj h
      subst hrs
      exact ⟨List.Pairwise.nil, fun r hr => absurd hr (List.not_mem_nil r)⟩
    | true =>
      rw [if_neg (by exact Bool.false_ne_true)] at h
      by_cases hdim : q.length ≠ st.dimension
      · rw [if_pos hdim] at h
        cases h
      · rw [if_neg hdim] at h
        have hrs := Except.ok.inj h
        subst hrs
        constructor
        · apply List.pairwise_map.mpr
          exact List.Pairwise.sublist (List.take_sublist k _)
            (List.sorted_insertionSort vec_row_le _)
        · intro r hr
          rcases List.mem_map.mp hr with ⟨row, _, hf⟩
          subst hf
          refine ⟨rfl, ?_⟩
          intro hd
          have h1 : (0 : ℚ) < 1 + row.distance := by
        
            have : (0 : ℚ) ≤ row.distance := hd
            linarith
          constructor
          · exact div_pos one_pos h1
          · exact (div_le_one h1).mpr (by linarith)
  · intro d₁ d₂ h1 h2
    simp only [score_of]
    exact one_div_lt_one_div_of_lt (by linarith) (by linarith)

theorem search_orders_by_distance_witness :
    score_of 1 < score_of 0 ∧
    ([] : List SearchResult).Pairwise (fun a b => a.distance ≤ b.distance) :=
  ⟨search_orders_by_distance.2.2 0 1 le_rfl one_pos,
   (search_orders_by_distance.2.1 (VectorStore.create 4) false dist0 [] 0 [] rfl).1⟩

/-- C7 counterexample: in the no-re-rank branch (here: re-rank capability
unavailable) semantic_search returns the whole candidate pool unchanged — a
pool of 10 with desired final count 5 comes back with all 10 results, not
truncated to 5 as the claim states. -/
theorem semantic_no_rerank_does_not_truncate :
    semantic_rerank_compose results10 true false [] 5 = some results10 ∧
    results10.length = 10 ∧
    semantic_rerank_compose results10 true false [] 5 ≠ some (results10.take 5) := by
  refine ⟨rfl, by decide, ?_⟩
  intro h
  have h1 : results10 = results10.take 5 := Option.some.inj (rfl.symm.trans h)
  have h2 := congrArg List.length h1
  simp at h2
  exact absurd h2 (by decide)

/-- C7 (amended): when re-rank is requested, the capability is available and
the pool exceeds the final count, the pool is re-ordered following the
re-ranker's returned items (a pool of 10 with a reversing stub re-ranker and
final count 5 yields exactly the last 5 vector-search candidates in reverse);
in every other case the vector-search order is returned unchanged and
untruncated. -/
theorem semantic_rerank_composition :
    ((semantic_rerank_compose results10 true true reverse_rerank_items 5).map
      (List.map SearchResult.id)) =
      some ((results10.drop 5).reverse.map SearchResult.id) ∧
    (∀ (results : List SearchResult) (use_rerank rerank_available : Bool)
        (items : List (Nat × ℚ)) (top_n : Nat),
      (use_rerank && rerank_available && decide (results.length > top_n)) = false →
      semantic_rerank_compose results use_rerank rerank_available items top_n =
        some results) := by
  constructor
  · decide
  · intro results use_rerank rerank_available items top_n h
    unfold semantic_rerank_compose
    rw [if_neg]
    rw [h]
    exact Bool.false_ne_true

theorem semantic_rerank_composition_witness :
    semantic_rerank_compose results10 false true [] 5 = some results10 :=
  semantic_rerank_composition.2 results10 false true [] 5 (by decide)

theorem alookup_map_self {β : Type} (h : FSFile → β) :
    ∀ (fs : List FSFile), (fs.map FSFile.rel_path).Nodup →
      ∀ f ∈ fs, alookup f.rel_path (fs.map (fun g => (g.rel_path, h g))) = some (h f) := by
  intro fs
  induction fs with
  | nil => intro _ f hf; cases hf
  | cons g rest ih =>
    intro hnd f hf
    rw [List.map_cons] at hnd
    rw [List.map_cons, alookup]
    rcases List.mem_cons.mp hf with he | ht
    · subst he
      rw [if_pos rfl]
    · have hne : ¬(g.rel_path = f.rel_path) := by
        intro he
        exact (List.nodup_cons.mp hnd).1
          (by rw [he]; exact List.mem_map_of_mem FSFile.rel_path ht)
      rw [if_neg hne]
      exact ih (List.nodup_cons.mp hnd).2 f ht

theorem walk_files_eq (existing : List (String × FileEntry)) :
    ∀ (fs : List FSFile) (acc : List (String × FileEntry)) (u s : Nat),
      (∀ f ∈ fs, alookup f.rel_path acc = none) →
      (fs.map FSFile.rel_path).Nodup →
      walk_files existing fs acc u s =
        (acc ++ fs.map (fun f => (f.rel_path, choose_entry existing f)),
         u + fs.countP (fun f => !(cache_hit existing f)),
         s + fs.countP (fun f => cache_hit existing f)) := by
  intro fs
  induction fs with
  | nil => intro acc u s _ _; simp [walk_files]
  | cons f rest ih =>
    intro acc u s hdis hnd
    have hacc : alookup f.rel_path acc = none := hdis f (List.mem_cons_self f rest)
    have hins : ∀ v : FileEntry,
        dict_insert acc f.rel_path v = acc ++ [(f.rel_path, v)] := by
      intro v
      unfold dict_insert
      rw [hacc]
      rfl
    rw [List.map_cons] at hnd
    have hnotin : f.rel_path ∉ rest.map FSFile.rel_path := (List.nodup_cons.mp hnd).1
    have hndrest : (rest.map FSFile.rel_path).Nodup := (List.nodup_cons.mp hnd).2
    have hdis2 : ∀ v : FileEntry, ∀ g ∈ rest,
        alookup g.rel_path (acc ++ [(f.rel_path, v)]) = none := by
      intro v g hg
      rw [alookup_append, hdis g (List.mem_cons_of_mem f hg)]
      show alookup g.rel_path [(f.rel_path, v)] = none
      rw [alookup, if_neg]
      · rfl
      · intro he
        exact hnotin (by
          rw [show f.rel_path = g.rel_path from he]
          exact List.mem_map_of_mem FSFile.rel_path hg)
    rw [walk_files]
    cases hlook : alookup f.rel_path existing with
    | some e =>
      dsimp only
      by_cases hle : f.mtime ≤ e.mtime
      · have hch : cache_hit existing f = true := by
          unfold cache_hit; rw [hlook]; exact decide_eq_true hle
        have hce : choose_entry existing f = e := by
          unfold choose_entry; rw [hlook]; exact if_pos hle
        rw [if_pos hle, hins, ih _ _ _ (hdis2 e) hndrest]
        simp only [List.map_cons, List.countP_cons, hch, hce, Bool.not_true,
          Prod.mk.injEq, List.append_assoc, List.singleton_append]
        refine ⟨trivial, ?_, ?_⟩ <;> (simp; try omega)
      · have hch : cache_hit existing f = false := by
          unfold cache_hit; rw [hlook]; exact decide_eq_false hle
        have hce : choose_entry existing f = compute_entry f := by
          unfold choose_entry; rw [hlook]; exact if_neg hle
        rw [if_neg hle, hins, ih _ _ _ (hdis2 (compute_entry f)) hndrest]
        simp only [List.map_cons, List.countP_cons, hch, hce, Bool.not_false,
          Prod.mk.injEq, List.append_assoc, List.singleton_append]
        refine ⟨trivial, ?_, ?_⟩ <;> (simp; try omega)
    | none =>
      dsimp only
      have hch : cache_hit existing f = false := by
        unfold cache_hit; rw [hlook]
      have hce : choose_entry existing f = compute_entry f := by
        unfold choose_entry; rw [hlook]
      rw [hins, ih _ _ _ (hdis2 (compute_entry f)) hndrest]
      simp only [List.map_cons, List.countP_cons, hch, hce, Bool.not_false,
        Prod.mk.injEq, List.append_assoc, List.singleton_append]
      refine ⟨trivial, ?_, ?_⟩ <;> (simp; try omega)

theorem build_index_unfold (now : Nat) (existing_index : Option MemoryIndex)
    (fs : List FSFile) (hnd : (fs.map FSFile.rel_path).Nodup)
    (ef : List (String × FileEntry))
    (hef : (match existing_index with
            | none => []
            | some ix => if ix.metadata.version ≠ INDEX_VERSION then [] else ix.files) = ef) :
    Indexer.build_index now false true existing_index fs =
      (⟨⟨now, INDEX_VERSION⟩, fs.map (fun f => (f.rel_path, choose_entry ef f))⟩,
       fs.countP (fun f => !(cache_hit ef f)),
       fs.countP (fun f => cache_hit ef f)) := by
  unfold Indexer.build_index
  rw [if_neg (by exact Bool.false_ne_true)]
  rw [show (if false = true then none else existing_index) = existing_index from rfl]
  rw [hef]
  rw [walk_files_eq ef fs [] 0 0 (fun f _ => rfl) hnd]
  simp only [List.nil_append, Nat.zero_add]

theorem choose_entry_of_lookup {existing : List (String × FileEntry)}
    {f : FSFile} {e : FileEntry} (h : alookup f.rel_path existing = some e)
    (hle : f.mtime ≤ e.mtime) : choose_entry existing f = e := by
  unfold choose_entry
  rw [h]
  exact if_pos hle

theorem cache_hit_of_lookup {existing : List (String × FileEntry)}
    {f : FSFile} {e : FileEntry} (h : alookup f.rel_path existing = some e)
    (hle : f.mtime ≤ e.mtime) : cache_hit existing f = true := by
  unfold cache_hit
  rw [h]
  exact decide_eq_true hle

theorem build_index_second_run (fs : List FSFile) (now1 now2 : Nat)
    (ef0 : List (String × FileEntry)) (hnd : (fs.map FSFile.rel_path).Nodup) :
    (Indexer.build_index now2 false true
        (some ⟨⟨now1, INDEX_VERSION⟩,
          fs.map (fun f => (f.rel_path, choose_entry ef0 f))⟩) fs).1.files =
      fs.map (fun f => (f.rel_path, choose_entry ef0 f)) ∧
    (Indexer.build_index now2 false true
        (some ⟨⟨now1, INDEX_VERSION⟩,
          fs.map (fun f => (f.rel_path, choose_entry ef0 f))⟩) fs).2.1 = 0 ∧
    (Indexer.build_index now2 false true
        (some ⟨⟨now1, INDEX_VERSION⟩,
          fs.map (fun f => (f.rel_path, choose_entry ef0 f))⟩) fs).2.2 =
      fs.length := by
  rw [build_index_unfold now2 _ fs hnd
    (fs.map (fun f => (f.rel_path, choose_entry ef0 f)))
    (by simp)]
  have hlook : ∀ f ∈ fs,
      alookup f.rel_path (fs.map (fun g => (g.rel_path, choose_entry ef0 g))) =
        some (choose_entry ef0 f) :=
    alookup_map_self (choose_entry ef0) fs hnd
  refine ⟨?_, ?_, ?_⟩
  · apply List.map_congr_left
    intro f hf
    rw [choose_entry_of_lookup (hlook f hf) (le_choose_entry_mtime ef0 f)]
  · apply List.countP_eq_zero.mpr
    intro f hf
    simp [cache_hit_of_lookup (hlook f hf) (le_choose_entry_mtime ef0 f)]
  · apply List.countP_eq_length.mpr
    intro f hf
    exact cache_hit_of_lookup (hlook f hf) (le_choose_entry_mtime ef0 f)

/-- C4 counterexample: rebuilding an unchanged one-file tree does not persist
byte-identical index content — the files section is identical, but the
metadata's last_build timestamp is the wall-clock time of each build, so the
two persisted indexes differ. -/
theorem build_index_not_byte_identical :
    (Indexer.build_index 1 false true
        (some (Indexer.build_index 0 false true none fs1).1) fs1).1 ≠
      (Indexer.build_index 0 false true none fs1).1 ∧
    (Indexer.build_index 1 false true
        (some (Indexer.build_index 0 false true none fs1).1) fs1).1.files =
      (Indexer.build_index 0 false true none fs1).1.files ∧
    (Indexer.build_index 1 false true
        (some (Indexer.build_index 0 false true none fs1).1) fs1).1.metadata.last_build = 1 ∧
    (Indexer.build_index 0 false true none fs1).1.metadata.last_build = 0 := by decide

/-- C4 (amended): calling buildIndex twice with no file changes between the
calls reproduces the files section unchanged and reports 100% cache hits on
the second call (every walked file is copied forward, none recomputed:
skipped = number of files, updated = 0); the full persisted content is not
byte-identical, because the metadata's last_build timestamp is refreshed on
every build. -/
theorem build_index_idempotent_files (fs : List FSFile) (now1 now2 : Nat)
    (existing0 : Option MemoryIndex)
    (hnd : (fs.map FSFile.rel_path).Nodup) :
    (Indexer.build_index now2 false true
        (some (Indexer.build_index now1 false true existing0 fs).1) fs).1.files =
      (Indexer.build_index now1 false true existing0 fs).1.files ∧
    (Indexer.build_index now2 false true
        (some (Indexer.build_index now1 false true existing0 fs).1) fs).2.1 = 0 ∧
    (Indexer.build_index now2 false true
        (some (Indexer.build_index now1 false true existing0 fs).1) fs).2.2 =
      fs.length := by
  cases existing0 with
  | none =>
    rw [build_index_unfold now1 none fs hnd [] rfl]
    exact build_index_second_run fs now1 now2 [] hnd
  | some ix =>
    rw [build_index_unfold now1 (some ix) fs hnd
      (if ix.metadata.version ≠ INDEX_VERSION then [] else ix.files) rfl]
    exact build_index_second_run fs now1 now2 _ hnd

theorem build_index_idempotent_files_witness :
    (Indexer.build_index 1 false true
        (some (Indexer.build_index 0 false true none fs1).1) fs1).1.files =
      (Indexer.build_index 0 false true none fs1).1.files ∧
    (Indexer.build_index 1 false true
        (some (Indexer.build_index 0 false true none fs1).1) fs1).2.1 = 0 ∧
    (Indexer.build_index 1 false true
        (some (Indexer.build_index 0 false true none fs1).1) fs1).2.2 = fs1.length :=
  build_index_idempotent_files fs1 0 1 none (by decide)
